import Mathlib

/-!
Verification development for the DeepSeek / OpenAI-compatible content
generator of this repository (`packages/core/src/core/deepseekContentGenerator.ts`).

The TypeScript source is shallowly embedded below.  JavaScript runtime
behaviour is modelled explicitly:
  * `undefined` / `null` valued fields become `Option`;
  * string truthiness (`s || d`, `if (s)`) is modelled by `jsOrS` / `truthy`,
    where the empty string is falsy;
  * nullish coalescing (`a ?? d`) becomes `Option.getD`;
  * `JSON.parse` (a runtime primitive) is an explicit parameter
    `String → Option Json` (`none` models a parse exception);
  * `Number(raw)` combined with the `Number.isFinite` check is an explicit
    parameter `String → Option Rat` (`none` models a non-finite result);
  * `Math.random().toString(16).slice(2)` is an explicit supply of suffixes
    `rand : Nat → String` consumed left to right (a counter is threaded where
    the source calls `Math.random()`);
  * string primitives (`trim`, `startsWith`, `slice`, `split`, `toLowerCase`)
    are re-implemented over character lists so that they compute inside the
    kernel; they mirror the JavaScript semantics on the inputs used here.
-/

namespace DeepSeek

/-! ## JavaScript string primitives (character-list based, kernel-computable) -/

/-- JS `s1 || s2` on an optional string: the empty string is falsy. -/
def jsOrS (a : Option String) (b : String) : String :=
  match a with
  | some s => if s = "" then b else s
  | none => b

/-- JS truthiness of an optional string (`undefined`, `null` and `""` are falsy). -/
def truthy (v : Option String) : Bool :=
  match v with
  | some s => s != ""
  | none => false

def trimChars (cs : List Char) : List Char :=
  ((cs.dropWhile Char.isWhitespace).reverse.dropWhile Char.isWhitespace).reverse

/-- JS `String.prototype.trim` (whitespace includes space, tab, CR, LF). -/
def jsTrim (s : String) : String := String.mk (trimChars s.data)

/-- JS `String.prototype.startsWith`. -/
def jsStartsWith (s pre : String) : Bool := pre.data.isPrefixOf s.data

/-- JS `String.prototype.slice(n)` for a non-negative start. -/
def jsDrop (s : String) (n : Nat) : String := String.mk (s.data.drop n)

def splitCharsAux (c : Char) : List Char → List Char → List String
  | [], acc => [String.mk acc.reverse]
  | x :: rest, acc =>
    if x = c then String.mk acc.reverse :: splitCharsAux c rest []
    else splitCharsAux c rest (x :: acc)

/-- JS `buffer.split(/\r?\n/)`, modelled as splitting on LF: any CR left at the
end of a line is removed by the `trim` every consumer applies, which yields the
same observable behaviour as the source regex split. -/
def jsSplitLines (s : String) : List String := splitCharsAux '\n' s.data []

/-- JS `String.prototype.toLowerCase` (ASCII, which covers the provider names). -/
def jsToLower (s : String) : String := String.mk (s.data.map Char.toLower)

def joinAll (l : List String) : String := l.foldl (fun a b => a ++ b) ""

/-! ## JSON values and `JSON.stringify` -/

inductive Json where
  | null
  | bool (b : Bool)
  | num (n : Int)
  | str (s : String)
  | arr (items : List Json)
  | obj (fields : List (String × Json))

/-- Escaping used by `JSON.stringify` for the quote and backslash characters
(the only escapes exercised by the inputs considered here). -/
def jsonEscape (s : String) : String :=
  s.data.foldl
    (fun acc c =>
      if c = '\\' then acc ++ "\\\\"
      else if c = '"' then acc ++ "\\\""
      else acc ++ String.mk [c])
    ""

mutual

def Json.stringify : Json → String
  | .null => "null"
  | .bool b => cond b "true" "false"
  | .num n => toString n
  | .str s => "\"" ++ jsonEscape s ++ "\""
  | .arr items => "[" ++ Json.stringifyItems items ++ "]"
  | .obj fields => "\x7b" ++ Json.stringifyFields fields ++ "\x7d"

def Json.stringifyItems : List Json → String
  | [] => ""
  | [x] => Json.stringify x
  | x :: y :: rest => Json.stringify x ++ "," ++ Json.stringifyItems (y :: rest)

def Json.stringifyFields : List (String × Json) → String
  | [] => ""
  | [kv] => "\"" ++ jsonEscape kv.1 ++ "\":" ++ Json.stringify kv.2
  | kv :: kv2 :: rest =>
    "\"" ++ jsonEscape kv.1 ++ "\":" ++ Json.stringify kv.2 ++ "," ++
      Json.stringifyFields (kv2 :: rest)

end

/-- JS property read `payload.output` followed by a `typeof ... === 'string'`
check: returns the string only when the value is an object whose `output`
field holds a string. -/
def Json.getStrField (j : Json) (key : String) : Option String :=
  match j with
  | .obj fields =>
    match fields.lookup key with
    | some (.str s) => some s
    | _ => none
  | _ => none

/-! ## Environment (`process.env`) and the Provider Resolver -/

/-- The environment variables read by the source file.  `none` models an unset
variable. -/
structure Env where
  GEMINI_CLI_PROVIDER : Option String
  DEEPSEEK_API_KEY : Option String
  GEMINI_API_KEY : Option String
  OPENAI_COMPAT_API_KEY : Option String
  DEEPSEEK_BASE_URL : Option String
  OPENAI_COMPAT_BASE_URL : Option String
  DEEPSEEK_MODEL : Option String
  OPENAI_COMPAT_MODEL : Option String
  OPENAI_COMPAT_TEMPERATURE : Option String

/-- Source `getProviderFromEnv`: `(process.env['GEMINI_CLI_PROVIDER'] || '').toLowerCase()`. -/
def getProviderFromEnv (env : Env) : String :=
  jsToLower (jsOrS env.GEMINI_CLI_PROVIDER "")

/-- Source `isDeepSeekEnabled` (lines 120-134). -/
def isDeepSeekEnabled (env : Env) : Bool :=
  let provider := getProviderFromEnv env
  if provider = "deepseek" then true
  else if provider = "openai_compatible" then true
  else if provider ≠ "" then false
  else truthy env.DEEPSEEK_API_KEY && !truthy env.GEMINI_API_KEY

/-- Source `resolveDeepSeekModel` (lines 136-152). -/
def resolveDeepSeekModel (env : Env) (requestModel : Option String) : String :=
  let provider := getProviderFromEnv env
  let envModel :=
    if provider = "openai_compatible" then env.OPENAI_COMPAT_MODEL
    else env.DEEPSEEK_MODEL
  if truthy envModel then envModel.getD ""
  else if (match requestModel with
           | some m => m != "" && jsStartsWith m "deepseek-"
           | none => false) then requestModel.getD ""
  else if provider = "openai_compatible" then "gpt-4o-mini"
  else "deepseek-chat"

/-- Source `resolveOpenAICompatTemperature` (lines 154-168).  `num` models
`Number(raw)` followed by the `Number.isFinite` check: `none` means the parse
did not yield a finite number. -/
def resolveOpenAICompatTemperature (num : String → Option Rat) (env : Env) :
    Option Rat :=
  if getProviderFromEnv env ≠ "openai_compatible" then none
  else
    match env.OPENAI_COMPAT_TEMPERATURE with
    | none => none
    | some raw => if raw = "" then none else num raw

/-! ## Generic request data model (Gemini side) -/

structure FunctionResponse where
  id : Option String
  name : Option String
  response : Option Json

structure Part where
  text : Option String
  functionResponse : Option FunctionResponse

def frToJson (fr : FunctionResponse) : Json :=
  Json.obj
    ((match fr.id with | some i => [("id", Json.str i)] | none => []) ++
     (match fr.name with | some n => [("name", Json.str n)] | none => []) ++
     (match fr.response with | some r => [("response", r)] | none => []))

def partToJson (p : Part) : Json :=
  Json.obj
    ((match p.text with | some t => [("text", Json.str t)] | none => []) ++
     (match p.functionResponse with
      | some fr => [("functionResponse", frToJson fr)]
      | none => []))

/-- Source `partToText` (lines 217-223): the text when present, otherwise the
minimal `JSON.stringify` fallback. -/
def partToText (p : Part) : String :=
  match p.text with
  | some t => t
  | none => Json.stringify (partToJson p)

/-- Source `contentPartsToText` (lines 225-230). -/
def contentPartsToText (parts : List Part) : String :=
  match parts with
  | [] => ""
  | _ => joinAll (parts.map partToText)

/-- The four accepted runtime shapes of `config.systemInstruction` (plus
absence, modelled by `Option` at the use site). -/
inductive SystemInstructionValue where
  | str (s : String)
  | content (parts : List Part)
  | part (p : Part)
  | partList (ps : List Part)

/-- Source `normalizeSystemInstruction` (lines 232-258), with the JS dynamic
checks replayed per shape: the initial `if (!systemInstruction)` guard makes
the empty string normalize to `null`; an object whose `parts` is an array is
flattened; an object with a `text` field is treated as a single `Part`;
an array is treated as `Part[]`. -/
def normalizeSystemInstruction : Option SystemInstructionValue → Option String
  | none => none
  | some (.str s) => if s = "" then none else some s
  | some (.content ps) => some (contentPartsToText ps)
  | some (.part p) => if p.text.isSome then some (partToText p) else none
  | some (.partList ps) => some (contentPartsToText ps)

structure FunctionDeclaration where
  name : Option String
  description : Option String
  parameters : Option Json

/-- Foreign tool declaration; the constant `type:'function'` tag is omitted and
the nested `function` object is flattened into the three payload fields. -/
structure DeepSeekTool where
  name : String
  description : Option String
  parameters : Json

/-- Source `convertFunctionDeclarationsToDeepSeekTools` (lines 260-285). -/
def convertFunctionDeclarationsToDeepSeekTools
    (functionDeclarations : Option (List FunctionDeclaration)) :
    Option (List DeepSeekTool) :=
  match functionDeclarations with
  | none => none
  | some l =>
    if l.isEmpty then none
    else
      let tools := l.filterMap fun fn =>
        match fn.name with
        | none => none
        | some n =>
          if n = "" then none
          else
            some
              { name := n
                description := fn.description
                parameters :=
                  fn.parameters.getD
                    (Json.obj
                      [("type", Json.str "object"), ("properties", Json.obj [])]) }
      if tools.length > 0 then some tools else none

/-! ## Foreign messages and the Request Translator -/

structure ToolCallFunction where
  name : String
  arguments : String
deriving DecidableEq

/-- Foreign `DeepSeekToolCall`; the constant `type:'function'` tag is omitted. -/
structure DeepSeekToolCall where
  id : String
  function : ToolCallFunction
deriving DecidableEq

inductive DeepSeekMessage where
  | system (content : String)
  | user (content : String)
  | assistant (content : String)
  | assistantWithCalls (content : String) (tool_calls : List DeepSeekToolCall)
  | tool (content : String) (tool_call_id : String)

/-- The per-response loop of the `role === 'user'` function-response branch of
`geminiRequestToDeepSeekMessages` (lines 324-340).  `rand k` is the suffix the
source obtains from `Math.random().toString(16).slice(2)`; the counter `k`
advances once per synthesized id. -/
def toolMessagesFor (rand : Nat → String) : Nat → List Part →
    List DeepSeekMessage × Nat
  | k, [] => ([], k)
  | k, p :: rest =>
    match p.functionResponse with
    | none => toolMessagesFor rand k rest
    | some fr =>
      let idk : String × Nat :=
        match fr.id with
        | some i => (i, k)
        | none => ((fr.name.getD "tool") ++ "_" ++ rand k, k + 1)
      let payload := fr.response.getD (Json.obj [])
      let output :=
        match Json.getStrField payload "output" with
        | some s => s
        | none => Json.stringify payload
      let ms := toolMessagesFor rand idk.2 rest
      (DeepSeekMessage.tool output idk.1 :: ms.1, ms.2)

structure Content where
  role : String
  parts : List Part

/-- The per-turn body of the `for (const content of normalizedContents)` loop
of `geminiRequestToDeepSeekMessages` (lines 316-360), returning the emitted
foreign messages together with the advanced randomness counter. -/
def translateContent (rand : Nat → String) (k : Nat) (content : Content) :
    List DeepSeekMessage × Nat :=
  if content.role = "user" then
    let functionResponses := content.parts.filter fun p => p.functionResponse.isSome
    if functionResponses.length > 0 then
      toolMessagesFor rand k functionResponses
    else ([DeepSeekMessage.user (contentPartsToText content.parts)], k)
  else if content.role = "model" then
    let text := contentPartsToText content.parts
    if text = "" then ([], k)
    else ([DeepSeekMessage.assistant text], k)
  else ([DeepSeekMessage.user (contentPartsToText content.parts)], k)

structure ToolsGroup where
  functionDeclarations : Option (List FunctionDeclaration)

structure GenConfig where
  systemInstruction : Option SystemInstructionValue
  tools : Option (List ToolsGroup)

structure GenRequest where
  model : Option String
  contents : List Content
  config : Option GenConfig

/-- The system-message prefix of the foreign message list (source lines
290-304): the normalized system instruction is prepended as one `system`
message exactly when it is truthy (`if (systemInstructionText)`). -/
def sysMsgsOf (si : Option SystemInstructionValue) : List DeepSeekMessage :=
  match normalizeSystemInstruction si with
  | some s => if s = "" then [] else [DeepSeekMessage.system s]
  | none => []

/-- Source `geminiRequestToDeepSeekMessages` (lines 287-363): normalize the
system instruction, translate the first tool group's declarations, prepend the
system message when the normalized text is truthy, then translate each turn in
order. -/
def geminiRequestToDeepSeekMessages (rand : Nat → String) (request : GenRequest) :
    List DeepSeekMessage × Option (List DeepSeekTool) :=
  let functionDeclarations :=
    ((request.config.bind fun c => c.tools).bind List.head?).bind
      fun g => g.functionDeclarations
  let tools := convertFunctionDeclarationsToDeepSeekTools functionDeclarations
  let sysMsgs : List DeepSeekMessage :=
    sysMsgsOf (request.config.bind fun c => c.systemInstruction)
  let folded :=
    request.contents.foldl
      (fun (p : List DeepSeekMessage × Nat) c =>
        let r := translateContent rand p.2 c
        (p.1 ++ r.1, r.2))
      (sysMsgs, 0)
  (folded.1, tools)

/-! ## Outbound request bodies -/

/-- The JSON body posted to `chat/completions`; `none` in an optional field
means the key is absent from the serialized object. -/
structure ChatRequestBody where
  model : String
  messages : List DeepSeekMessage
  tools : Option (List DeepSeekTool)
  tool_choice : Option String
  temperature : Option Rat
  stream : Option Bool
  user : String

/-- The body built by `generateContent` (lines 436-443). -/
def generateContentBody (num : String → Option Rat) (rand : Nat → String)
    (env : Env) (request : GenRequest) (userPromptId : String) : ChatRequestBody :=
  let mt := geminiRequestToDeepSeekMessages rand request
  { model := resolveDeepSeekModel env request.model
    messages := mt.1
    tools := mt.2
    tool_choice := if mt.2.isSome then some "auto" else none
    temperature := resolveOpenAICompatTemperature num env
    stream := none
    user := userPromptId }

/-- The body built by `generateContentStream` (lines 488-495); note the source
includes `stream: true` but no `temperature` entry, so the number-parse oracle
goes unused on this path. -/
def generateContentStreamBody (_num : String → Option Rat) (rand : Nat → String)
    (env : Env) (request : GenRequest) (userPromptId : String) : ChatRequestBody :=
  let mt := geminiRequestToDeepSeekMessages rand request
  { model := resolveDeepSeekModel env request.model
    messages := mt.1
    tools := mt.2
    tool_choice := if mt.2.isSome then some "auto" else none
    temperature := none
    stream := some true
    user := userPromptId }

/-! ## Streaming Reconstruction Engine -/

structure FunctionDelta where
  name : Option String
  arguments : Option String

/-- One entry of a frame's `delta.tool_calls` array. -/
structure ToolCallDelta where
  index : Option Nat
  id : Option String
  function : Option FunctionDelta

structure StreamDelta where
  content : Option String
  tool_calls : Option (List ToolCallDelta)

structure StreamChoice where
  delta : Option StreamDelta
  finish_reason : Option String

/-- A parsed `DeepSeekChatCompletionStreamChunk` (only the fields the engine
reads). -/
structure StreamChunk where
  choices : Option (List StreamChoice)

/-- `Map.prototype.get`, on the insertion-ordered association list that models
the JS `Map`. -/
def mapGet {α : Type} : List (Nat × α) → Nat → Option α
  | [], _ => none
  | e :: rest, k => if e.1 = k then some e.2 else mapGet rest k

/-- `Map.prototype.set`: update in place (keeping the original insertion
position) when the key exists, append otherwise. -/
def mapSet {α : Type} : List (Nat × α) → Nat → α → List (Nat × α)
  | [], k, v => [(k, v)]
  | e :: rest, k, v => if e.1 = k then (k, v) :: rest else e :: mapSet rest k v

/-- The per-delta merge into `toolCallsByIndex` (source lines 577-591). -/
def mergeToolCallDelta (acc : List (Nat × DeepSeekToolCall)) (tc : ToolCallDelta) :
    List (Nat × DeepSeekToolCall) :=
  let idx := tc.index.getD 0
  let existing := mapGet acc idx
  let id :=
    jsOrS tc.id (jsOrS (existing.map fun e => e.id) ("call_" ++ toString idx))
  let name :=
    jsOrS (tc.function.bind fun f => f.name)
      (jsOrS (existing.map fun e => e.function.name) "tool")
  let argsDelta := jsOrS (tc.function.bind fun f => f.arguments) ""
  let args := jsOrS (existing.map fun e => e.function.arguments) "" ++ argsDelta
  mapSet acc idx { id := id, function := { name := name, arguments := args } }

/-- Insertion step of the JS `Array.prototype.sort` with comparator
`([a], [b]) => a - b` on the accumulator entries (keys are unique, so
stability is immaterial). -/
def insertByKey {α : Type} (p : Nat × α) : List (Nat × α) → List (Nat × α)
  | [] => [p]
  | q :: rest => if p.1 ≤ q.1 then p :: q :: rest else q :: insertByKey p rest

def sortByKey {α : Type} (l : List (Nat × α)) : List (Nat × α) :=
  l.foldr insertByKey []

structure FunctionCallPart where
  id : String
  name : String
  args : Json

/-- A generic response chunk produced by the engine: either one text part or a
consolidated tool-calls chunk with one part per call. -/
inductive GenChunk where
  | text (s : String)
  | toolCalls (parts : List FunctionCallPart)

def GenChunk.isText : GenChunk → Bool
  | .text _ => true
  | .toolCalls _ => false

/-- The per-call body of `createGeminiStreamToolCallsChunk` (lines 186-203):
parse the accumulated argument string (`{}` for the falsy empty string), and on
parse failure wrap the raw text under the `__raw` key.  `parseArgs` models
`JSON.parse`. -/
def toolCallToPart (parseArgs : String → Option Json) (tc : DeepSeekToolCall) :
    FunctionCallPart :=
  let parsedArgs : Json :=
    if tc.function.arguments = "" then Json.obj []
    else
      match parseArgs tc.function.arguments with
      | some j => j
      | none => Json.obj [("__raw", Json.str tc.function.arguments)]
  { id := tc.id, name := tc.function.name, args := parsedArgs }

/-- Source `createGeminiStreamToolCallsChunk` (lines 183-215). -/
def createGeminiStreamToolCallsChunk (parseArgs : String → Option Json)
    (toolCalls : List DeepSeekToolCall) : GenChunk :=
  GenChunk.toolCalls (toolCalls.map (toolCallToPart parseArgs))

/-- Source `flushToolCallsIfAny` (lines 525-532): sort accumulator entries by
index ascending, and emit one consolidated chunk when any calls accumulated.
The accumulator itself is not cleared. -/
def flushToolCallsIfAny (parseArgs : String → Option Json)
    (acc : List (Nat × DeepSeekToolCall)) : List GenChunk :=
  let calls := (sortByKey acc).map fun e => e.2
  if calls.length > 0 then [createGeminiStreamToolCallsChunk parseArgs calls]
  else []

structure StreamState where
  acc : List (Nat × DeepSeekToolCall)
  finished : Bool

/-- One iteration of the `for (const rawLine of lines)` loop of `gen`
(lines 546-598).  `parseFrame` models `JSON.parse` on a frame payload
(`none` models the caught parse exception, which skips the frame).
Returns the successor state and the chunks yielded for this line;
`finished := true` records the `return` taken on the `[DONE]` sentinel. -/
def processLine (parseFrame : String → Option StreamChunk)
    (parseArgs : String → Option Json) (st : StreamState) (rawLine : String) :
    StreamState × List GenChunk :=
  let line := jsTrim rawLine
  if jsStartsWith line "data:" then
    let data := jsTrim (jsDrop line 5)
    if data = "" then (st, [])
    else if data = "[DONE]" then
      ({ st with finished := true }, flushToolCallsIfAny parseArgs st.acc)
    else
      match parseFrame data with
      | none => (st, [])
      | some chunk =>
        let choice := (chunk.choices.getD []).head?
        let delta := choice.bind fun c => c.delta
        let textOut : List GenChunk :=
          match delta.bind fun d => d.content with
          | some s => if s = "" then [] else [GenChunk.text s]
          | none => []
        let acc1 :=
          match delta.bind fun d => d.tool_calls with
          | some tcs =>
            if tcs.length > 0 then tcs.foldl mergeToolCallDelta st.acc else st.acc
          | none => st.acc
        let finishOut :=
          match choice.bind fun c => c.finish_reason with
          | some r => if r = "" then [] else flushToolCallsIfAny parseArgs acc1
          | none => []
        ({ st with acc := acc1 }, textOut ++ finishOut)
  else (st, [])

/-- Process the complete lines extracted from one read; once the `[DONE]`
`return` has fired, the remaining lines are not looked at (the generator has
exited). -/
def processLines (parseFrame : String → Option StreamChunk)
    (parseArgs : String → Option Json) (st : StreamState) :
    List String → StreamState × List GenChunk
  | [] => (st, [])
  | l :: rest =>
    if st.finished then (st, [])
    else
      let r1 := processLine parseFrame parseArgs st l
      let r2 := processLines parseFrame parseArgs r1.1 rest
      (r2.1, r1.2 ++ r2.2)

structure GenState where
  buffer : String
  st : StreamState

/-- One iteration of the `while (!done)` read loop of `gen` (lines 535-599):
append the decoded bytes to the rolling buffer, split on line boundaries,
retain the trailing partial line, and dispatch the complete lines. -/
def processRead (parseFrame : String → Option StreamChunk)
    (parseArgs : String → Option Json) (gs : GenState) (readStr : String) :
    GenState × List GenChunk :=
  if gs.st.finished then (gs, [])
  else
    let buf := gs.buffer ++ readStr
    let parts := jsSplitLines buf
    let newBuffer := (parts.getLast?).getD ""
    let lines := parts.dropLast
    let r := processLines parseFrame parseArgs gs.st lines
    ({ buffer := newBuffer, st := r.1 }, r.2)

/-- The whole generator `gen` (lines 534-603) run against a transport that
delivers the decoded strings `reads` in order and then reports exhaustion:
after the reads, a final flush is performed unless the `[DONE]` `return`
already ended the sequence. -/
def runGen (parseFrame : String → Option StreamChunk)
    (parseArgs : String → Option Json) (reads : List String) : List GenChunk :=
  let folded :=
    reads.foldl
      (fun (p : GenState × List GenChunk) r =>
        let q := processRead parseFrame parseArgs p.1 r
        (q.1, p.2 ++ q.2))
      (⟨"", ⟨[], false⟩⟩, [])
  folded.2 ++
    (if folded.1.st.finished then [] else flushToolCallsIfAny parseArgs folded.1.st.acc)

/-! ## Spec-shaped reformulation used for the function-response refinement claim -/

/-- Reformulation, in the spec's words, of how a function-response turn is
translated: one `tool` message per response, `tool_call_id` taken from the
response's identifier or synthesized as `<name-or-tool>_<random-suffix>` when
absent, content preferring a string `output` field verbatim and otherwise
serializing the whole payload.  The suffix supply `rand` advances once per
synthesized id, mirroring one `Math.random()` call each. -/
def specToolMessages (rand : Nat → String) : Nat → List FunctionResponse →
    List DeepSeekMessage
  | _, [] => []
  | k, fr :: rest =>
    let cid :=
      match fr.id with
      | some i => i
      | none => (fr.name.getD "tool") ++ "_" ++ rand k
    let payload := fr.response.getD (Json.obj [])
    let out :=
      match Json.getStrField payload "output" with
      | some s => s
      | none => Json.stringify payload
    DeepSeekMessage.tool out cid ::
      specToolMessages rand (k + (if fr.id.isSome then 0 else 1)) rest

/-! ## Helper lemmas -/

lemma jsOrS_some_self_empty (s : String) : jsOrS (some s) "" = s := by
  by_cases h : s = "" <;> simp [jsOrS, h]

lemma mapGet_mapSet_self {α : Type} (m : List (Nat × α)) (k : Nat) (v : α) :
    mapGet (mapSet m k v) k = some v := by
  induction m with
  | nil => simp [mapSet, mapGet]
  | cons e rest ih =>
    by_cases h : e.1 = k
    · simp [mapSet, mapGet, h]
    · simp [mapSet, mapGet, h, ih]

lemma mapGet_mapSet_ne {α : Type} (m : List (Nat × α)) (k : Nat) (v : α)
    (j : Nat) (h : j ≠ k) : mapGet (mapSet m k v) j = mapGet m j := by
  induction m with
  | nil =>
    simp only [mapSet, mapGet]
    rw [if_neg (fun hkj => h hkj.symm)]
  | cons e rest ih =>
    by_cases he : e.1 = k
    · simp only [mapSet, if_pos he, mapGet]
      rw [if_neg (fun hkj => h hkj.symm),
        if_neg (fun hej => h (by rw [he] at hej; exact hej.symm))]
    · simp only [mapSet, if_neg he, mapGet]
      by_cases hej : e.1 = j
      · rw [if_pos hej, if_pos hej]
      · rw [if_neg hej, if_neg hej, ih]

lemma insertByKey_perm {α : Type} (p : Nat × α) (l : List (Nat × α)) :
    (insertByKey p l).Perm (p :: l) := by
  induction l with
  | nil => simp [insertByKey]
  | cons q rest ih =>
    by_cases h : p.1 ≤ q.1
    · simp [insertByKey, h]
    · simp only [insertByKey, if_neg h]
      exact (ih.cons q).trans (List.Perm.swap p q rest)

lemma sortByKey_perm {α : Type} (l : List (Nat × α)) : (sortByKey l).Perm l := by
  induction l with
  | nil => simp [sortByKey]
  | cons p rest ih =>
    have : sortByKey (p :: rest) = insertByKey p (sortByKey rest) := rfl
    rw [this]
    exact (insertByKey_perm p (sortByKey rest)).trans (ih.cons p)

lemma insertByKey_pairwise {α : Type} (p : Nat × α) (l : List (Nat × α))
    (h : l.Pairwise fun a b => a.1 ≤ b.1) :
    (insertByKey p l).Pairwise fun a b => a.1 ≤ b.1 := by
  induction l with
  | nil => simp [insertByKey]
  | cons q rest ih =>
    rcases List.pairwise_cons.mp h with ⟨hq, hrest⟩
    by_cases hpq : p.1 ≤ q.1
    · simp only [insertByKey, if_pos hpq]
      refine List.pairwise_cons.mpr ⟨?_, h⟩
      intro b hb
      rcases List.mem_cons.mp hb with rfl | hb'
      · exact hpq
      · exact le_trans hpq (hq b hb')
    · simp only [insertByKey, if_neg hpq]
      refine List.pairwise_cons.mpr ⟨?_, ih hrest⟩
      intro b hb
      have hb2 : b = p ∨ b ∈ rest := by
        have := (insertByKey_perm p rest).mem_iff.mp hb
        simpa using this
      rcases hb2 with rfl | hb2
      · exact le_of_not_le hpq
      · exact hq b hb2

lemma sortByKey_pairwise {α : Type} (l : List (Nat × α)) :
    (sortByKey l).Pairwise fun a b => a.1 ≤ b.1 := by
  induction l with
  | nil => simp [sortByKey]
  | cons p rest ih =>
    have : sortByKey (p :: rest) = insertByKey p (sortByKey rest) := rfl
    rw [this]
    exact insertByKey_pairwise p (sortByKey rest) ih

lemma flushToolCallsIfAny_eq (parseArgs : String → Option Json)
    (acc : List (Nat × DeepSeekToolCall)) :
    flushToolCallsIfAny parseArgs acc =
      if acc = [] then []
      else
        [GenChunk.toolCalls
          (((sortByKey acc).map fun e => e.2).map (toolCallToPart parseArgs))] := by
  by_cases h : acc = []
  · subst h
    simp [flushToolCallsIfAny, sortByKey]
  · have hlen : ((sortByKey acc).map fun e : Nat × DeepSeekToolCall => e.2).length =
        acc.length := by
      rw [List.length_map, (sortByKey_perm acc).length_eq]
    have hpos : 0 < acc.length := List.length_pos.mpr h
    simp only [flushToolCallsIfAny, createGeminiStreamToolCallsChunk]
    rw [if_pos (by omega), if_neg h]

lemma flushToolCallsIfAny_no_text (parseArgs : String → Option Json)
    (acc : List (Nat × DeepSeekToolCall)) :
    (flushToolCallsIfAny parseArgs acc).filter GenChunk.isText = [] := by
  rw [flushToolCallsIfAny_eq]
  by_cases h : acc = [] <;> simp [h, GenChunk.isText]

lemma toolMessagesFor_spec (rand : Nat → String) :
    ∀ (parts : List Part) (frs : List FunctionResponse) (k : Nat),
      parts.map (fun p => p.functionResponse) = frs.map some →
      (toolMessagesFor rand k parts).1 = specToolMessages rand k frs := by
  intro parts
  induction parts with
  | nil =>
    intro frs k h
    cases frs with
    | nil => simp [toolMessagesFor, specToolMessages]
    | cons fr rest => simp at h
  | cons p prest ih =>
    intro frs k h
    cases frs with
    | nil => simp at h
    | cons fr frrest =>
      simp only [List.map_cons, List.cons.injEq] at h
      rcases h with ⟨hhead, htail⟩
      simp only [toolMessagesFor, hhead, specToolMessages]
      cases hid : fr.id with
      | some i => simp [hid, ih frrest k htail]
      | none => simp [hid, ih frrest (k + 1) htail]

lemma toolMessagesFor_all_tool (rand : Nat → String) :
    ∀ (ps : List Part) (k : Nat) (m : DeepSeekMessage),
      m ∈ (toolMessagesFor rand k ps).1 →
      ∃ c cid, m = DeepSeekMessage.tool c cid := by
  intro ps
  induction ps with
  | nil => intro k m hm; simp [toolMessagesFor] at hm
  | cons p rest ih =>
    intro k m hm
    cases hfr : p.functionResponse with
    | none =>
      rw [toolMessagesFor, hfr] at hm
      exact ih k m hm
    | some fr =>
      rw [toolMessagesFor, hfr] at hm
      simp only [List.mem_cons] at hm
      rcases hm with rfl | hm
      · exact ⟨_, _, rfl⟩
      · exact ih _ m hm

lemma gemini_messages_congr (rand : Nat → String) (request1 request2 : GenRequest)
    (hc : request1.contents = request2.contents)
    (ht : (request1.config.bind fun c => c.tools) =
      (request2.config.bind fun c => c.tools))
    (hs : sysMsgsOf (request1.config.bind fun c => c.systemInstruction) =
      sysMsgsOf (request2.config.bind fun c => c.systemInstruction)) :
    geminiRequestToDeepSeekMessages rand request1 =
      geminiRequestToDeepSeekMessages rand request2 := by
  simp only [geminiRequestToDeepSeekMessages]
  rw [hc, ht, hs]

/-! ## Concrete inputs used by witnesses and counterexamples -/

def exRand : Nat → String := fun _ => "cafe123"

def exDeltaFirst : ToolCallDelta :=
  ⟨some 0, some "a", some ⟨some "f", some "x"⟩⟩

def exDeltaSecond : ToolCallDelta :=
  ⟨some 0, some "b", some ⟨some "g", some "y"⟩⟩

/-- Frame-parse oracle for the index-order streaming scenario: payload `A`
parses to a tool-call delta at index 1, payload `B` to one at index 0. -/
def exPf : String → Option StreamChunk := fun s =>
  if s = "A" then
    some ⟨some [⟨some ⟨none, some [⟨some 1, some "a1", some ⟨some "f1", some "args1"⟩⟩]⟩, none⟩]⟩
  else if s = "B" then
    some ⟨some [⟨some ⟨none, some [⟨some 0, some "a0", some ⟨some "f0", some "args0"⟩⟩]⟩, none⟩]⟩
  else none

/-- Argument-parse oracle matching `exPf`'s argument strings. -/
def exPa : String → Option Json := fun s =>
  if s = "args0" then some (Json.obj [("k", Json.num 0)])
  else if s = "args1" then some (Json.obj [("k", Json.num 1)])
  else none

/-- Frame-parse oracle for the content-delta claims: payload `E` carries an
empty content delta, payload `T` a non-empty one. -/
def exPfText : String → Option StreamChunk := fun s =>
  if s = "E" then some ⟨some [⟨some ⟨some "", none⟩, none⟩]⟩
  else if s = "T" then some ⟨some [⟨some ⟨some "hi", none⟩, none⟩]⟩
  else none

def exNum : String → Option Rat := fun s => if s = "0.5" then some (1/2 : Rat) else none

def exEnvC6 : Env :=
  ⟨some "openai_compatible", none, none, none, none, none, none, none, some "0.5"⟩

def exReqEmpty : GenRequest := ⟨none, [], none⟩

/-! ## Claims -/

/-- Claim C1, counterexample: the claim says that once an `id` or a `name` has
been set for an index, later deltas never overwrite it.  On the code, a second
delta for index 0 that carries a non-empty id `"b"` and name `"g"` replaces the
previously stored id `"a"` and name `"f"` (source merges with
`tc.id || existing?.id` and `tc.function?.name || existing?.function.name`,
where the incoming delta wins). -/
theorem c1_counterexample :
    mapGet (mergeToolCallDelta [] exDeltaFirst) 0 =
      some { id := "a", function := { name := "f", arguments := "x" } } ∧
    mapGet (mergeToolCallDelta (mergeToolCallDelta [] exDeltaFirst) exDeltaSecond) 0 =
      some { id := "b", function := { name := "g", arguments := "xy" } } ∧
    ("b" : String) ≠ "a" ∧ ("g" : String) ≠ "f" :=
  ⟨rfl, rfl, by decide, by decide⟩

/-- Claim C1, amended: a later delta for an index overwrites the stored `id`
(resp. `name`) only when the delta itself carries a non-empty id (resp. name);
when the delta's id (resp. name) is absent or empty, the previously stored
non-empty value is preserved; the arguments buffer is always appended to,
never replaced; and entries at other indices are untouched. -/
theorem c1_amended (acc : List (Nat × DeepSeekToolCall)) (tc : ToolCallDelta)
    (e : DeepSeekToolCall)
    (hexist : mapGet acc (tc.index.getD 0) = some e) :
    mapGet (mergeToolCallDelta acc tc) (tc.index.getD 0) =
      some
        { id := jsOrS tc.id
            (jsOrS (some e.id) ("call_" ++ toString (tc.index.getD 0)))
          function :=
            { name := jsOrS (tc.function.bind fun f => f.name)
                (jsOrS (some e.function.name) "tool")
              arguments :=
                e.function.arguments ++
                  jsOrS (tc.function.bind fun f => f.arguments) "" } } ∧
    ((tc.id = none ∨ tc.id = some "") → e.id ≠ "" →
      (mapGet (mergeToolCallDelta acc tc) (tc.index.getD 0)).map
          (fun c => c.id) = some e.id) ∧
    ((tc.function.bind fun f => f.name) = none ∨
        (tc.function.bind fun f => f.name) = some "" → e.function.name ≠ "" →
      (mapGet (mergeToolCallDelta acc tc) (tc.index.getD 0)).map
          (fun c => c.function.name) = some e.function.name) ∧
    (∃ suffix,
      (mapGet (mergeToolCallDelta acc tc) (tc.index.getD 0)).map
          (fun c => c.function.arguments) =
        some (e.function.arguments ++ suffix)) ∧
    (∀ j, j ≠ tc.index.getD 0 →
      mapGet (mergeToolCallDelta acc tc) j = mapGet acc j) := by
  have hmain : mergeToolCallDelta acc tc =
      mapSet acc (tc.index.getD 0)
        { id := jsOrS tc.id
            (jsOrS (some e.id) ("call_" ++ toString (tc.index.getD 0)))
          function :=
            { name := jsOrS (tc.function.bind fun f => f.name)
                (jsOrS (some e.function.name) "tool")
              arguments :=
                e.function.arguments ++
                  jsOrS (tc.function.bind fun f => f.arguments) "" } } := by
    simp only [mergeToolCallDelta, hexist, Option.map_some']
    rw [jsOrS_some_self_empty]
  have hget : mapGet (mergeToolCallDelta acc tc) (tc.index.getD 0) =
      some
        { id := jsOrS tc.id
            (jsOrS (some e.id) ("call_" ++ toString (tc.index.getD 0)))
          function :=
            { name := jsOrS (tc.function.bind fun f => f.name)
                (jsOrS (some e.function.name) "tool")
              arguments :=
                e.function.arguments ++
                  jsOrS (tc.function.bind fun f => f.arguments) "" } } := by
    rw [hmain, mapGet_mapSet_self]
  refine ⟨hget, ?_, ?_, ?_, ?_⟩
  · intro hid hne
    rw [hget]
    rcases hid with h | h <;> simp [h, jsOrS, hne]
  · intro hname hne
    rw [hget]
    rcases hname with h | h <;> simp [h, jsOrS, hne]
  · exact ⟨jsOrS (tc.function.bind fun f => f.arguments) "", by rw [hget]; rfl⟩
  · intro j hj
    rw [hmain, mapGet_mapSet_ne _ _ _ _ hj]

/-- Claim C1, witness: a later delta for index 0 that carries only an argument
fragment (no id, no name) preserves the stored id `"a"` and name `"f"`. -/
theorem c1_witness :
    (mapGet
        (mergeToolCallDelta [(0, ⟨"a", ⟨"f", "x"⟩⟩)]
          ⟨some 0, none, some ⟨none, some "y"⟩⟩) 0).map
      (fun c => c.id) = some "a" ∧
    (mapGet
        (mergeToolCallDelta [(0, ⟨"a", ⟨"f", "x"⟩⟩)]
          ⟨some 0, none, some ⟨none, some "y"⟩⟩) 0).map
      (fun c => c.function.name) = some "f" :=
  ⟨(c1_amended [(0, ⟨"a", ⟨"f", "x"⟩⟩)] ⟨some 0, none, some ⟨none, some "y"⟩⟩
      ⟨"a", ⟨"f", "x"⟩⟩ rfl).2.1 (Or.inl rfl) (by decide),
   (c1_amended [(0, ⟨"a", ⟨"f", "x"⟩⟩)] ⟨some 0, none, some ⟨none, some "y"⟩⟩
      ⟨"a", ⟨"f", "x"⟩⟩ rfl).2.2.1 (Or.inl rfl) (by decide)⟩

/-- Claim C2: every flush sorts the accumulator entries by index ascending
(regardless of arrival order), emits exactly one chunk with one part per
accumulated tool call when the accumulator is non-empty and no chunk when it
is empty; in a concrete streaming run where tool calls arrive at indices 1
then 0, they are flushed in index order 0 then 1. -/
theorem c2_flush_sorted :
    (∀ (parseArgs : String → Option Json) (acc : List (Nat × DeepSeekToolCall)),
      flushToolCallsIfAny parseArgs acc =
        (if acc = [] then []
         else
           [GenChunk.toolCalls
             (((sortByKey acc).map fun e => e.2).map (toolCallToPart parseArgs))]) ∧
      (sortByKey acc).Pairwise (fun a b => a.1 ≤ b.1) ∧
      (sortByKey acc).Perm acc ∧
      (((sortByKey acc).map fun e => e.2).map (toolCallToPart parseArgs)).length =
        acc.length) ∧
    runGen exPf exPa ["data: A\n", "data: B\n", "data: [DONE]\n"] =
      [GenChunk.toolCalls
        [⟨"a0", "f0", Json.obj [("k", Json.num 0)]⟩,
         ⟨"a1", "f1", Json.obj [("k", Json.num 1)]⟩]] := by
  refine ⟨fun parseArgs acc =>
    ⟨flushToolCallsIfAny_eq parseArgs acc, sortByKey_pairwise acc,
      sortByKey_perm acc, ?_⟩, rfl⟩
  rw [List.length_map, List.length_map, (sortByKey_perm acc).length_eq]

/-- Claim C3: a stream line whose data payload is neither empty nor the
terminal sentinel and fails to parse as JSON is skipped: the state is
unchanged, nothing is emitted, the sequence is not terminated, and the
remaining lines are processed exactly as if the malformed line were absent. -/
theorem c3_malformed_skipped (parseFrame : String → Option StreamChunk)
    (parseArgs : String → Option Json) (st : StreamState) (rawLine : String)
    (rest : List String)
    (hdata : jsStartsWith (jsTrim rawLine) "data:" = true)
    (hne : jsTrim (jsDrop (jsTrim rawLine) 5) ≠ "")
    (hnd : jsTrim (jsDrop (jsTrim rawLine) 5) ≠ "[DONE]")
    (hparse : parseFrame (jsTrim (jsDrop (jsTrim rawLine) 5)) = none) :
    processLine parseFrame parseArgs st rawLine = (st, []) ∧
    processLines parseFrame parseArgs st (rawLine :: rest) =
      processLines parseFrame parseArgs st rest := by
  have h1 : processLine parseFrame parseArgs st rawLine = (st, []) := by
    simp only [processLine]
    rw [if_pos hdata, if_neg hne, if_neg hnd, hparse]
  refine ⟨h1, ?_⟩
  by_cases hf : st.finished = true
  · rw [processLines, if_pos hf]
    cases rest with
    | nil => rw [processLines]
    | cons r rs => rw [processLines, if_pos hf]
  · rw [processLines, if_neg hf, h1]
    simp

/-- Claim C3, witness: a concrete malformed frame `data: oops` under a parser
that rejects everything is a no-op, and processing it before a sentinel line
equals processing the sentinel line alone. -/
theorem c3_witness :
    processLine (fun _ => none) (fun _ => none) ⟨[], false⟩ "data: oops" =
      (⟨[], false⟩, []) ∧
    processLines (fun _ => none) (fun _ => none) ⟨[], false⟩
        ["data: oops", "data: [DONE]"] =
      processLines (fun _ => none) (fun _ => none) ⟨[], false⟩ ["data: [DONE]"] :=
  c3_malformed_skipped (fun _ => none) (fun _ => none) ⟨[], false⟩ "data: oops"
    ["data: [DONE]"] rfl (by decide) (by decide) rfl

/-- Claim C4: the provider-enablement predicate returns true exactly when the
explicit (lowercased) provider selector names this family (`deepseek` or
`openai_compatible`), or the selector is unset/empty and the DeepSeek
credential is present while the Gemini credential is absent; and it returns
false whenever the selector names any other family. -/
theorem c4_enablement :
    (∀ env : Env,
      isDeepSeekEnabled env =
        ((getProviderFromEnv env == "deepseek") ||
         (getProviderFromEnv env == "openai_compatible") ||
         ((getProviderFromEnv env == "") && truthy env.DEEPSEEK_API_KEY &&
            !truthy env.GEMINI_API_KEY))) ∧
    (∀ env : Env, getProviderFromEnv env ≠ "deepseek" →
      getProviderFromEnv env ≠ "openai_compatible" →
      getProviderFromEnv env ≠ "" → isDeepSeekEnabled env = false) := by
  constructor
  · intro env
    by_cases h1 : getProviderFromEnv env = "deepseek"
    · simp [isDeepSeekEnabled, h1]
    · by_cases h2 : getProviderFromEnv env = "openai_compatible"
      · simp [isDeepSeekEnabled, h1, h2]
      · by_cases h3 : getProviderFromEnv env = ""
        · simp [isDeepSeekEnabled, h1, h2, h3]
        · simp [isDeepSeekEnabled, h1, h2, h3]
  · intro env h1 h2 h3
    simp [isDeepSeekEnabled, h1, h2, h3]

/-- Claim C4, witness: with the selector naming another family (`vertexai`)
the generator is disabled even though the DeepSeek key is present. -/
theorem c4_witness :
    isDeepSeekEnabled
        ⟨some "vertexai", some "dsk", none, none, none, none, none, none, none⟩ =
      false :=
  c4_enablement.2
    ⟨some "vertexai", some "dsk", none, none, none, none, none, none, none⟩
    (by decide) (by decide) (by decide)

/-- Claim C5, counterexample: the claim says all four accepted shapes
normalize to the identical flattened text for any text.  At the empty text the
plain-string shape normalizes to absent (the JS `if (!systemInstruction)`
falsy guard) while the single-part shape normalizes to the empty string, so
the normalization results differ. -/
theorem c5_counterexample :
    normalizeSystemInstruction (some (.str "")) = none ∧
    normalizeSystemInstruction (some (.part ⟨some "", none⟩)) = some "" ∧
    normalizeSystemInstruction (some (.str "")) ≠
      normalizeSystemInstruction (some (.part ⟨some "", none⟩)) :=
  ⟨rfl, rfl, by decide⟩

/-- Claim C5, amended: for every non-empty text the four accepted shapes
(string; object with `parts`; single part; part array) normalize to the
identical text; for the empty text the string shape normalizes to absent while
the part-based shapes normalize to the empty string; and for every text
(empty included) the four shapes still yield the same foreign message list,
because the empty normalized text is falsy and prepends no system message. -/
theorem c5_amended (t : String) (ht : t ≠ "") :
    (normalizeSystemInstruction (some (.str t)) = some t ∧
     normalizeSystemInstruction (some (.content [⟨some t, none⟩])) = some t ∧
     normalizeSystemInstruction (some (.part ⟨some t, none⟩)) = some t ∧
     normalizeSystemInstruction (some (.partList [⟨some t, none⟩])) = some t) ∧
    (∀ (u : String) (rand : Nat → String) (contents : List Content)
        (tools : Option (List ToolsGroup)),
      geminiRequestToDeepSeekMessages rand
          ⟨none, contents, some ⟨some (.str u), tools⟩⟩ =
        geminiRequestToDeepSeekMessages rand
          ⟨none, contents, some ⟨some (.content [⟨some u, none⟩]), tools⟩⟩ ∧
      geminiRequestToDeepSeekMessages rand
          ⟨none, contents, some ⟨some (.content [⟨some u, none⟩]), tools⟩⟩ =
        geminiRequestToDeepSeekMessages rand
          ⟨none, contents, some ⟨some (.part ⟨some u, none⟩), tools⟩⟩ ∧
      geminiRequestToDeepSeekMessages rand
          ⟨none, contents, some ⟨some (.part ⟨some u, none⟩), tools⟩⟩ =
        geminiRequestToDeepSeekMessages rand
          ⟨none, contents, some ⟨some (.partList [⟨some u, none⟩]), tools⟩⟩) := by
  constructor
  · exact ⟨by simp [normalizeSystemInstruction, ht], rfl, rfl, rfl⟩
  · intro u rand contents tools
    have hstr : sysMsgsOf (some (.str u)) =
        (if u = "" then [] else [DeepSeekMessage.system u]) := by
      by_cases hu : u = "" <;> simp [sysMsgsOf, normalizeSystemInstruction, hu]
    have hcpt : contentPartsToText [⟨some u, none⟩] = u := rfl
    have hcontent : sysMsgsOf (some (.content [⟨some u, none⟩])) =
        (if u = "" then [] else [DeepSeekMessage.system u]) := by
      simp [sysMsgsOf, normalizeSystemInstruction, hcpt]
    have hpt : partToText ⟨some u, none⟩ = u := rfl
    have hpart : sysMsgsOf (some (.part ⟨some u, none⟩)) =
        (if u = "" then [] else [DeepSeekMessage.system u]) := by
      simp [sysMsgsOf, normalizeSystemInstruction, hpt]
    have hlist : sysMsgsOf (some (.partList [⟨some u, none⟩])) =
        (if u = "" then [] else [DeepSeekMessage.system u]) := by
      simp [sysMsgsOf, normalizeSystemInstruction, hcpt]
    refine ⟨?_, ?_, ?_⟩
    · exact gemini_messages_congr rand _ _ rfl rfl
        (by show sysMsgsOf (some (.str u)) =
              sysMsgsOf (some (.content [⟨some u, none⟩]))
            rw [hstr, hcontent])
    · exact gemini_messages_congr rand _ _ rfl rfl
        (by show sysMsgsOf (some (.content [⟨some u, none⟩])) =
              sysMsgsOf (some (.part ⟨some u, none⟩))
            rw [hcontent, hpart])
    · exact gemini_messages_congr rand _ _ rfl rfl
        (by show sysMsgsOf (some (.part ⟨some u, none⟩)) =
              sysMsgsOf (some (.partList [⟨some u, none⟩]))
            rw [hpart, hlist])

/-- Claim C5, witness: the four shapes instantiated at the non-empty text
`"hi"` all normalize to `"hi"`. -/
theorem c5_witness :
    ("hi" : String) ≠ "" ∧
    (normalizeSystemInstruction (some (.str "hi")) = some "hi" ∧
     normalizeSystemInstruction (some (.content [⟨some "hi", none⟩])) = some "hi" ∧
     normalizeSystemInstruction (some (.part ⟨some "hi", none⟩)) = some "hi" ∧
     normalizeSystemInstruction (some (.partList [⟨some "hi", none⟩])) = some "hi") :=
  ⟨by decide, (c5_amended "hi" (by decide)).1⟩

/-- Claim C6, counterexample: the claim says a finite configured temperature
reaches the outbound body of both `generateContent` and
`generateContentStream`.  With the compatible provider active and
`OPENAI_COMPAT_TEMPERATURE="0.5"` parsing to the finite value 1/2, the
streaming request body still carries no temperature field (the source builds
the stream body without a `temperature` entry). -/
theorem c6_counterexample :
    resolveOpenAICompatTemperature exNum exEnvC6 = some (1/2 : Rat) ∧
    (generateContentStreamBody exNum exRand exEnvC6 exReqEmpty "call-id").temperature =
      none :=
  ⟨rfl, rfl⟩

/-- Claim C6, amended: the streaming body never carries a temperature field;
the non-streaming `generateContent` body carries exactly the resolved
temperature override, which is the configured value when the active provider
is the compatible variant and the configuration parses as a finite number, and
is absent (with no error) when the configuration is absent, empty, or does not
parse as a finite number. -/
theorem c6_amended :
    (∀ (num : String → Option Rat) (rand : Nat → String) (env : Env)
        (req : GenRequest) (uid : String),
      (generateContentStreamBody num rand env req uid).temperature = none) ∧
    (∀ (num : String → Option Rat) (rand : Nat → String) (env : Env)
        (req : GenRequest) (uid : String),
      (generateContentBody num rand env req uid).temperature =
        resolveOpenAICompatTemperature num env) ∧
    (∀ (num : String → Option Rat) (env : Env) (raw : String) (t : Rat),
      getProviderFromEnv env = "openai_compatible" →
      env.OPENAI_COMPAT_TEMPERATURE = some raw → raw ≠ "" → num raw = some t →
      resolveOpenAICompatTemperature num env = some t) ∧
    (∀ (num : String → Option Rat) (env : Env) (raw : String),
      env.OPENAI_COMPAT_TEMPERATURE = some raw → num raw = none →
      resolveOpenAICompatTemperature num env = none) ∧
    (∀ (num : String → Option Rat) (env : Env),
      env.OPENAI_COMPAT_TEMPERATURE = none →
      resolveOpenAICompatTemperature num env = none) := by
  refine ⟨fun num rand env req uid => rfl, fun num rand env req uid => rfl,
    ?_, ?_, ?_⟩
  · intro num env raw t h1 h2 h3 h4
    simp [resolveOpenAICompatTemperature, h1, h2, h3, h4]
  · intro num env raw h1 h2
    by_cases hp : getProviderFromEnv env = "openai_compatible"
    · by_cases hr : raw = "" <;>
        simp [resolveOpenAICompatTemperature, hp, h1, h2, hr]
    · simp [resolveOpenAICompatTemperature, hp]
  · intro num env h1
    by_cases hp : getProviderFromEnv env = "openai_compatible" <;>
      simp [resolveOpenAICompatTemperature, hp, h1]

/-- Claim C6, witness: with the compatible provider active and a temperature
string parsing to 1/2, the resolver yields 1/2 and the non-streaming body
carries it. -/
theorem c6_witness :
    resolveOpenAICompatTemperature exNum exEnvC6 = some (1/2 : Rat) ∧
    (generateContentBody exNum exRand exEnvC6 exReqEmpty "call-id").temperature =
      some (1/2 : Rat) := by
  constructor
  · exact c6_amended.2.2.1 exNum exEnvC6 "0.5" (1/2 : Rat) rfl rfl (by decide) rfl
  · exact (c6_amended.2.1 exNum exRand exEnvC6 exReqEmpty "call-id").trans
      (c6_amended.2.2.1 exNum exEnvC6 "0.5" (1/2 : Rat) rfl rfl (by decide) rfl)

/-- Claim C7: a user-role turn whose parts are all function responses
translates to one `tool`-role foreign message per response, with
`tool_call_id` equal to the response's identifier when present and otherwise
synthesized as `<name-or-tool>_<random-suffix>`, and with content equal to the
payload's string `output` field verbatim when present and otherwise the JSON
serialization of the whole payload (the spec-shaped `specToolMessages`
captures exactly this wording). -/
theorem c7_function_responses (rand : Nat → String) (k : Nat)
    (parts : List Part) (frs : List FunctionResponse)
    (hfr : parts.map (fun p => p.functionResponse) = frs.map some)
    (hne : parts ≠ []) :
    (translateContent rand k ⟨"user", parts⟩).1 = specToolMessages rand k frs := by
  have hall : ∀ p ∈ parts, p.functionResponse.isSome := by
    intro p hp
    have hmem : p.functionResponse ∈ frs.map some := by
      rw [← hfr]
      exact List.mem_map_of_mem _ hp
    rcases List.mem_map.mp hmem with ⟨fr, _, hfr2⟩
    rw [← hfr2]
    rfl
  have hfilter : parts.filter (fun p => p.functionResponse.isSome) = parts :=
    List.filter_eq_self.mpr hall
  have hpos : 0 < (parts.filter fun p => p.functionResponse.isSome).length := by
    rw [hfilter]
    exact List.length_pos.mpr hne
  simp only [translateContent]
  rw [if_pos trivial, if_pos hpos, hfilter]
  exact toolMessagesFor_spec rand parts frs k hfr

/-- Claim C7, witness: a function-response turn with explicit id `call_1` and
payload with string field `output = "42"` becomes one tool message with
`tool_call_id` `call_1` and content `42`. -/
theorem c7_witness :
    (translateContent exRand 0
        ⟨"user",
         [⟨none, some ⟨some "call_1", some "getWeather",
             some (Json.obj [("output", Json.str "42")])⟩⟩]⟩).1 =
      [DeepSeekMessage.tool "42" "call_1"] :=
  (c7_function_responses exRand 0
      [⟨none, some ⟨some "call_1", some "getWeather",
          some (Json.obj [("output", Json.str "42")])⟩⟩]
      [⟨some "call_1", some "getWeather",
        some (Json.obj [("output", Json.str "42")])⟩]
      rfl (by simp)).trans rfl

/-- Claim C8, counterexample: the claim says every model-role turn yields
exactly one assistant message; a model turn whose parts are empty (flattened
text is the empty string, which is falsy) yields no assistant message at all. -/
theorem c8_counterexample :
    ((translateContent exRand 0 ⟨"model", []⟩).1).length ≠ 1 := by decide

/-- Claim C8, amended: a model-role turn translates to exactly one assistant
message holding its flattened text when that text is non-empty, and to no
message at all when the flattened text is empty; in either case no tool_calls
are re-encoded (the emitted message, when any, is a plain assistant message). -/
theorem c8_amended (rand : Nat → String) (k : Nat) (parts : List Part) :
    translateContent rand k ⟨"model", parts⟩ =
      ((if contentPartsToText parts = "" then []
        else [DeepSeekMessage.assistant (contentPartsToText parts)]), k) := by
  by_cases h : contentPartsToText parts = "" <;> simp [translateContent, h]

/-- Claim C9: when a user-role turn contains at least one function-response
part, every other part of the turn (text parts included) is discarded: the
output equals the tool messages built from the function-response parts alone,
and every emitted message is a tool-role message (in particular no user
message is produced for the turn). -/
theorem c9_mixed_turn (rand : Nat → String) (k : Nat) (parts : List Part)
    (h : ∃ p ∈ parts, p.functionResponse.isSome) :
    (translateContent rand k ⟨"user", parts⟩).1 =
      (toolMessagesFor rand k (parts.filter fun p => p.functionResponse.isSome)).1 ∧
    ∀ m ∈ (translateContent rand k ⟨"user", parts⟩).1,
      ∃ c cid, m = DeepSeekMessage.tool c cid := by
  rcases h with ⟨p, hp, hfr⟩
  have hmem : p ∈ parts.filter fun p => p.functionResponse.isSome :=
    List.mem_filter.mpr ⟨hp, hfr⟩
  have hpos : 0 < (parts.filter fun p => p.functionResponse.isSome).length :=
    List.length_pos.mpr (List.ne_nil_of_mem hmem)
  have heq : translateContent rand k ⟨"user", parts⟩ =
      toolMessagesFor rand k (parts.filter fun p => p.functionResponse.isSome) := by
    simp only [translateContent]
    rw [if_pos trivial, if_pos hpos]
  refine ⟨by rw [heq], ?_⟩
  rw [heq]
  intro m hm
  exact toolMessagesFor_all_tool rand _ k m hm

/-- Claim C9, witness: a turn mixing a text part with a function response
(explicit id `call_9`, no payload) emits exactly the one tool message — the
payload defaults to the empty object, serialized — and no user message. -/
theorem c9_witness :
    (translateContent exRand 0
        ⟨"user", [⟨some "hello", none⟩, ⟨none, some ⟨some "call_9", none, none⟩⟩]⟩).1 =
      [DeepSeekMessage.tool "\x7b\x7d" "call_9"] :=
  ((c9_mixed_turn exRand 0
      [⟨some "hello", none⟩, ⟨none, some ⟨some "call_9", none, none⟩⟩]
      ⟨⟨none, some ⟨some "call_9", none, none⟩⟩,
        List.mem_cons_of_mem _ (List.mem_cons_self _ _), rfl⟩).1).trans rfl

/-- Claim C10: a successfully parsed stream frame emits a standalone text
chunk exactly for a non-empty content delta: the text chunks among the line's
output are `[text s]` when the first choice's delta content is a non-empty
string `s`, and empty when the content delta is absent or the empty string
(any flush triggered by a finish reason contributes no text chunk). -/
theorem c10_text_chunk (parseFrame : String → Option StreamChunk)
    (parseArgs : String → Option Json) (st : StreamState) (rawLine : String)
    (chunk : StreamChunk)
    (hdata : jsStartsWith (jsTrim rawLine) "data:" = true)
    (hne : jsTrim (jsDrop (jsTrim rawLine) 5) ≠ "")
    (hnd : jsTrim (jsDrop (jsTrim rawLine) 5) ≠ "[DONE]")
    (hparse : parseFrame (jsTrim (jsDrop (jsTrim rawLine) 5)) = some chunk) :
    (processLine parseFrame parseArgs st rawLine).2.filter GenChunk.isText =
      (match ((chunk.choices.getD []).head?.bind fun c => c.delta).bind
          (fun d => d.content) with
       | some s => if s = "" then [] else [GenChunk.text s]
       | none => []) := by
  simp only [processLine]
  rw [if_pos hdata, if_neg hne, if_neg hnd, hparse]
  simp only [List.filter_append]
  cases hcontent : ((chunk.choices.getD []).head?.bind fun c => c.delta).bind
      (fun d => d.content) with
  | none =>
    cases hfin : (chunk.choices.getD []).head?.bind fun c => c.finish_reason with
    | none => simp [hcontent, hfin]
    | some r =>
      by_cases hr : r = "" <;>
        simp [hcontent, hfin, hr, flushToolCallsIfAny_no_text]
  | some s =>
    cases hfin : (chunk.choices.getD []).head?.bind fun c => c.finish_reason with
    | none =>
      by_cases hs : s = "" <;> simp [hcontent, hfin, hs, GenChunk.isText]
    | some r =>
      by_cases hs : s = "" <;> by_cases hr : r = "" <;>
        simp [hcontent, hfin, hs, hr, GenChunk.isText, flushToolCallsIfAny_no_text]

/-- Claim C10, witness: a frame whose content delta is the empty string
produces no text chunk, and one whose content delta is `"hi"` produces exactly
the text chunk `"hi"`. -/
theorem c10_witness :
    (processLine exPfText exPa ⟨[], false⟩ "data: E").2.filter GenChunk.isText =
      [] ∧
    (processLine exPfText exPa ⟨[], false⟩ "data: T").2.filter GenChunk.isText =
      [GenChunk.text "hi"] :=
  ⟨(c10_text_chunk exPfText exPa ⟨[], false⟩ "data: E" _ rfl (by decide)
      (by decide) rfl).trans rfl,
   (c10_text_chunk exPfText exPa ⟨[], false⟩ "data: T" _ rfl (by decide)
      (by decide) rfl).trans rfl⟩

end DeepSeek
